import Mathlib

/-!
Verification development for the `ubuntu-auto-update` dashboard service
(`src/dashboard/app.py`): a shallow embedding of the report-ingestion
endpoint (`POST /api/v1/reports`), the JSON listing endpoint
(`GET /api/v1/reports`), and the HTML index view, over an explicit
store state mirroring the single SQLite `reports` table.

Modelling conventions:
  - Payload field values range over JSON scalars (`null`, booleans,
    integers, strings); a payload is the parsed JSON object, an
    association list with unique keys as produced by `json.loads`.
  - `json.dumps` followed by `json.loads` is the identity on such
    payloads, so the `raw` column stores the payload value itself.
  - Machine integers do not appear: Python integers are unbounded and
    are modelled by `Int`.
  - SQLite's `datetime()` is modelled as the TEXT value it renders,
    which is what `ORDER BY datetime(timestamp) DESC` actually compares;
    see the section on `sqliteDatetime` for the exact scope.
-/

/-- Python/JSON scalar values as they appear in a parsed payload. -/
inductive PyVal where
  | null : PyVal
  | bool : Bool → PyVal
  | int : Int → PyVal
  | str : String → PyVal
deriving DecidableEq

/-- A parsed JSON object body: association list from keys to values. -/
abbrev Payload := List (String × PyVal)

/-- Python `==` on scalar values: numeric cross-type equality between
booleans and integers (`True == 1`, `False == 0`), structural equality
otherwise. -/
def pyEq : PyVal → PyVal → Bool
  | PyVal.null, PyVal.null => true
  | PyVal.bool a, PyVal.bool b => a == b
  | PyVal.int a, PyVal.int b => a == b
  | PyVal.bool a, PyVal.int b => (if a then (1 : Int) else 0) == b
  | PyVal.int a, PyVal.bool b => a == (if b then (1 : Int) else 0)
  | PyVal.str a, PyVal.str b => a == b
  | _, _ => false

/-- Python `str()` on a scalar payload value. -/
def pyStr : PyVal → String
  | PyVal.null => "None"
  | PyVal.bool true => "True"
  | PyVal.bool false => "False"
  | PyVal.int n => toString n
  | PyVal.str s => s

/-- Characters Python strips around an integer literal. -/
def isPyWs (c : Char) : Bool := c = ' ' || c = '\t' || c = '\n' || c = '\r' || c = '\x0b' || c = '\x0c'

/-- Strip leading and trailing whitespace, as `int(str)` does. -/
def stripWs (cs : List Char) : List Char :=
  ((cs.dropWhile isPyWs).reverse.dropWhile isPyWs).reverse

/-- Digit run with optional single underscores between digits, the
grammar `int()` accepts after the sign. -/
def validUnderscoreDigits (cs : List Char) : Bool :=
  match cs with
  | [] => false
  | c :: _ =>
    c.isDigit && ((cs.getLast?.map Char.isDigit).getD false) &&
      cs.all (fun d => d.isDigit || d = '_') &&
      (cs.zip cs.tail).all (fun p => !(p.1 = '_' && p.2 = '_'))

/-- Numeric value of a digit-and-underscore run, ignoring underscores. -/
def digitsVal (cs : List Char) : Nat :=
  cs.foldl (fun a c => if c.isDigit then a * 10 + (c.toNat - 48) else a) 0

/-- Python `int(s)` on a string: optional surrounding whitespace, an
optional sign, then decimal digits with single interior underscores. -/
def pyIntOfString (s : String) : Option Int :=
  match stripWs s.data with
  | '+' :: rest => if validUnderscoreDigits rest then some (Int.ofNat (digitsVal rest)) else Option.none
  | '-' :: rest => if validUnderscoreDigits rest then some (-(Int.ofNat (digitsVal rest))) else Option.none
  | cs => if validUnderscoreDigits cs then some (Int.ofNat (digitsVal cs)) else Option.none

/-- Python `int(x)` on a scalar payload value: identity on integers,
`True`/`False` map to `1`/`0`, strings parse per `pyIntOfString`, and
`None` raises (here: `none`). -/
def pyInt : PyVal → Option Int
  | PyVal.int n => some n
  | PyVal.bool b => some (if b then 1 else 0)
  | PyVal.str s => pyIntOfString s
  | PyVal.null => Option.none

/-- Python slicing `s[:n]`: the first `n` characters. -/
def pyTake (n : Nat) (s : String) : String := String.mk (s.data.take n)

/-- The `reboot_required` normalization from `ingest_report`:
`1 if (value in (True, 1, "true", "True")) else 0`, with tuple
membership using Python `==`. -/
def rebootNorm (v : PyVal) : Int :=
  if pyEq v (PyVal.bool true) || pyEq v (PyVal.int 1) ||
      pyEq v (PyVal.str "true") || pyEq v (PyVal.str "True") then 1 else 0

/-- First binding of a key in a payload (`json.loads` keeps keys
unique, so first and last coincide). -/
def lookupKey (d : Payload) (k : String) : Option PyVal :=
  match d with
  | [] => Option.none
  | kv :: rest => if kv.1 = k then some kv.2 else lookupKey rest k

/-- Python `k in data` on the payload dict. -/
def hasKey (d : Payload) (k : String) : Bool := (lookupKey d k).isSome

/-- Indexing `data[k]`, used only on keys already checked present. -/
def getKey (d : Payload) (k : String) : PyVal := (lookupKey d k).getD PyVal.null

/-- Replace the value bound to `k`, leaving other bindings untouched
(used to compare payloads that differ only in one field). -/
def setKey (d : Payload) (k : String) (v : PyVal) : Payload :=
  d.map (fun kv => if kv.1 = k then (kv.1, v) else kv)

/-- Truthiness of a Python `Optional[str]`: `None` and `""` are falsy. -/
def strTruthy : Option String → Bool
  | Option.none => false
  | some s => s != ""

/-! ### SQLite `datetime()` as an ordering key

The program orders rows by `datetime(timestamp) DESC` (`app.py:106,111`),
i.e. by the TEXT that `datetime()` renders, compared with SQLite's BINARY
collation (byte order, which on this all-ASCII output is codepoint order).
`sqliteDatetime` below embeds that function: it parses per SQLite's
`parseYyyyMmDd`/`parseHhMmSs`/`parseTimezone` and renders
`YYYY-MM-DD HH:MM:SS` with the parsed fields kept VERBATIM — hour 24 and
day-of-month overflow such as February 30 are accepted and rendered as
given, not normalized — except that a nonzero timezone offset (and the
missing date of a time-only string) routes through Julian-day arithmetic,
and every accepted value must land inside SQLite's valid Julian-day range.
Out of scope, mapped to `none` (SQL `NULL`, which `DESC` orders last):
the impure `'now'`, bare Julian-day numbers (SQLite parses those through
C doubles), and fractional seconds long enough for C double rounding to
differ from exact decimal arithmetic (at most one in the last of 17+
digits). The integer Julian-day computations below reproduce the C
double computations of `computeJD`/`computeYMD` exactly; this was checked
against SQLite over the whole valid day range.
-/

/-- Whitespace per SQLite's `sqlite3Isspace`. -/
def isSqlSpace (c : Char) : Bool :=
  c = ' ' || c = '\t' || c = '\n' || c = '\x0b' || c = '\x0c' || c = '\r'

/-- Read exactly two digits. -/
def read2 : List Char → Option (Nat × List Char)
  | c1 :: c2 :: rest =>
    if c1.isDigit && c2.isDigit then
      some ((c1.toNat - 48) * 10 + (c2.toNat - 48), rest)
    else Option.none
  | _ => Option.none

/-- Read exactly four digits. -/
def read4 : List Char → Option (Nat × List Char)
  | c1 :: c2 :: c3 :: c4 :: rest =>
    if c1.isDigit && c2.isDigit && c3.isDigit && c4.isDigit then
      some (((c1.toNat - 48) * 1000 + (c2.toNat - 48) * 100 +
          (c3.toNat - 48) * 10 + (c4.toNat - 48)), rest)
    else Option.none
  | _ => Option.none

/-- Consume one expected character. -/
def expectChar (c : Char) : List Char → Option (List Char)
  | d :: rest => if d = c then some rest else Option.none
  | [] => Option.none

/-- Fraction digits after the decimal point: accumulates the digit value
and the matching power of ten. -/
def readFrac : List Char → Nat → Nat → Nat × Nat × List Char
  | [], q, den => (q, den, [])
  | c :: rest, q, den =>
    if c.isDigit then readFrac rest (q * 10 + (c.toNat - 48)) (den * 10)
    else (q, den, c :: rest)

/-- SQLite `parseTimezone`: optional whitespace, then end, `Z`/`z`, or
a signed `HH:MM` offset with hours at most 14, then optional whitespace
to the end; the result is the offset in minutes. -/
def parseTZ (cs : List Char) : Option Int :=
  match cs.dropWhile isSqlSpace with
  | [] => some 0
  | c :: rest =>
    if c = 'Z' || c = 'z' then
      if (rest.dropWhile isSqlSpace).isEmpty then some 0 else Option.none
    else if c = '+' || c = '-' then
      match read2 rest with
      | Option.none => Option.none
      | some (th, r1) =>
        match expectChar ':' r1 with
        | Option.none => Option.none
        | some r2 =>
          match read2 r2 with
          | Option.none => Option.none
          | some (tm, r3) =>
            if th ≤ 14 && tm ≤ 59 && (r3.dropWhile isSqlSpace).isEmpty then
              some ((if c = '-' then (-1 : Int) else 1) * (th * 60 + tm))
            else Option.none
    else Option.none

/-- The time-of-day fields exactly as parsed: `HH:MM[:SS[.fff]]` plus
the timezone offset, fraction kept as an exact decimal. -/
structure ParsedHMS where
  h : Nat
  mi : Nat
  s : Nat
  fracNum : Nat
  fracDen : Nat
  tz : Int

/-- SQLite `parseHhMmSs`: hours at most 24, minutes and seconds at most
59, an optional fraction needing at least one digit, then the timezone. -/
def parseHMS (cs : List Char) : Option ParsedHMS :=
  match read2 cs with
  | Option.none => Option.none
  | some (h, cs1) =>
    match expectChar ':' cs1 with
    | Option.none => Option.none
    | some cs2 =>
      match read2 cs2 with
      | Option.none => Option.none
      | some (mi, cs3) =>
        if h > 24 || mi > 59 then Option.none
        else
          match cs3 with
          | ':' :: cs4 =>
            match read2 cs4 with
            | Option.none => Option.none
            | some (s, cs5) =>
              if s > 59 then Option.none
              else
                match cs5 with
                | '.' :: c :: cs6 =>
                  if c.isDigit then
                    match readFrac (c :: cs6) 0 1 with
                    | (q, den, cs7) =>
                      match parseTZ cs7 with
                      | Option.none => Option.none
                      | some tz => some ⟨h, mi, s, q, den, tz⟩
                  else Option.none
                | _ =>
                  match parseTZ cs5 with
                  | Option.none => Option.none
                  | some tz => some ⟨h, mi, s, 0, 1, tz⟩
          | _ =>
            match parseTZ cs3 with
            | Option.none => Option.none
            | some tz => some ⟨h, mi, 0, 0, 1, tz⟩

/-- SQLite `parseYyyyMmDd` date part: optional leading minus, a 4-digit
year, month 01-12, day 01-31 (no calendar validation beyond 31). -/
def parseYMD (cs0 : List Char) : Option (Int × Nat × Nat × List Char) :=
  let neg := match cs0 with
    | '-' :: _ => true
    | _ => false
  let cs := if neg then cs0.tail else cs0
  match read4 cs with
  | Option.none => Option.none
  | some (y, cs1) =>
    match expectChar '-' cs1 with
    | Option.none => Option.none
    | some cs2 =>
      match read2 cs2 with
      | Option.none => Option.none
      | some (m, cs3) =>
        match expectChar '-' cs3 with
        | Option.none => Option.none
        | some cs4 =>
          match read2 cs4 with
          | Option.none => Option.none
          | some (d, rest) =>
            if m < 1 || m > 12 || d < 1 || d > 31 then Option.none
            else some ((if neg then -(y : Int) else (y : Int)), m, d, rest)

/-- SQLite `computeJD` (Meeus) in milliseconds, exact integer form;
`Int.tdiv` truncates toward zero exactly like the C `int64` division. -/
def computeJD (y : Int) (m d : Nat) : Int :=
  let Y := if m ≤ 2 then y - 1 else y
  let M : Int := if m ≤ 2 then (m : Int) + 12 else (m : Int)
  let A := Y.tdiv 100
  let B := 2 - A + A.tdiv 4
  let X1 := (36525 * (Y + 4716)).tdiv 100
  let X2 := (306001 * (M + 1)).tdiv 10000
  (X1 + X2 + (d : Int) + B) * 86400000 - 131716800000

/-- SQLite `computeYMD` (inverse Meeus), exact integer form of the C
double arithmetic (they agree on every day of the valid range). -/
def ymdFromJD (iJD : Int) : Int × Nat × Nat :=
  let Z := (iJD + 43200000).tdiv 86400000
  let A := (4 * Z - 7468865).tdiv 146097
  let A2 := Z + 1 + A - A.tdiv 4
  let B := A2 + 1524
  let C2 := (20 * B - 2442).tdiv 7305
  let D2 := (36525 * C2).tdiv 100
  let E := (10000 * (B - D2)).tdiv 306001
  let X1 := (306001 * E).tdiv 10000
  let day := B - D2 - X1
  let month := if E < 14 then E - 1 else E - 13
  let year := if month > 2 then C2 - 4716 else C2 - 4715
  (year, month.toNat, day.toNat)

/-- SQLite `computeHMS`: time of day recovered from the Julian day in
milliseconds, truncated to whole seconds. -/
def hmsFromJD (iJD : Int) : Nat × Nat × Nat :=
  let sec := ((iJD + 43200000).emod 86400000).toNat / 1000
  (sec / 3600, (sec / 60) % 60, sec % 60)

/-- SQLite's maximal valid Julian day in milliseconds (one millisecond
before year 10000). -/
def maxJD : Int := 464269060799999

/-- Zero-padded two-digit rendering (`%02d`). -/
def pad2 (n : Nat) : String := if n < 10 then "0" ++ toString n else toString n

/-- Year rendering: four zero-padded digits, negative years as the sign
followed by the four-digit magnitude, exactly as `datetime()` prints. -/
def padYear (y : Int) : String :=
  let a := y.natAbs
  let core :=
    if a < 10 then "000" ++ toString a
    else if a < 100 then "00" ++ toString a
    else if a < 1000 then "0" ++ toString a
    else toString a
  if y < 0 then "-" ++ core else core

/-- Validate against the Julian-day range and render
`YYYY-MM-DD HH:MM:SS`: the parsed fields verbatim when no nonzero
timezone offset applies (fraction truncated), else recomputed from the
offset-shifted Julian day; `validYMD` is false for time-only input,
whose date always comes from the Julian day (2000-01-01 plus any
hour-24 carry). -/
def sqliteRender (y : Int) (m d : Nat) (validYMD : Bool) (hms : ParsedHMS) : Option String :=
  let msFrac := (Int.ofNat (2000 * hms.fracNum + hms.fracDen)).tdiv (Int.ofNat (2 * hms.fracDen))
  let iJD := computeJD y m d +
    Int.ofNat (hms.h * 3600000 + hms.mi * 60000 + hms.s * 1000) + msFrac - hms.tz * 60000
  if iJD < 0 || iJD > maxJD then Option.none
  else
    let ymdR := if validYMD && hms.tz == 0 then ((y : Int), m, d) else ymdFromJD iJD
    let hmsR := if hms.tz == 0 then (hms.h, hms.mi, hms.s) else hmsFromJD iJD
    some (padYear ymdR.1 ++ "-" ++ pad2 ymdR.2.1 ++ "-" ++ pad2 ymdR.2.2 ++ " " ++
      pad2 hmsR.1 ++ ":" ++ pad2 hmsR.2.1 ++ ":" ++ pad2 hmsR.2.2)

/-- SQLite `datetime(ts)` as the TEXT it renders, `none` for SQL `NULL`:
a date (whitespace and `T` characters skipped before the time, a bare
date meaning midnight) or a time-only string (date 2000-01-01). -/
def sqliteDatetime (ts : String) : Option String :=
  match parseYMD ts.data with
  | some (y, m, d, rest) =>
    match rest.dropWhile (fun c => isSqlSpace c || c = 'T') with
    | [] => sqliteRender y m d true ⟨0, 0, 0, 0, 1, 0⟩
    | rest2 =>
      match parseHMS rest2 with
      | Option.none => Option.none
      | some hms => sqliteRender y m d true hms
  | Option.none =>
    match parseHMS ts.data with
    | Option.none => Option.none
    | some hms => sqliteRender 2000 1 1 false hms

/-- Strict codepoint-lexicographic order on character lists: BINARY
collation on the ASCII strings `datetime()` renders. -/
def charListLt : List Char → List Char → Bool
  | [], [] => false
  | [], _ :: _ => true
  | _ :: _, [] => false
  | a :: as, b :: bs => if a < b then true else if b < a then false else charListLt as bs

/-- TEXT comparison of two rendered datetime values. -/
def strLt (a b : String) : Bool := charListLt a.data b.data

/-! ### The `reports` table -/

/-- One row of the `reports` table, columns exactly as in `init_db`
(`CREATE TABLE reports`): there is no `version` column. -/
structure Report where
  id : Nat
  server : String
  status : String
  exit_code : Int
  duration_seconds : Int
  reboot_required : Int
  timestamp : String
  raw : Payload
  ip : Option String
deriving DecidableEq

/-- The database state: the rows plus the next `AUTOINCREMENT` id. -/
structure Store where
  rows : List Report
  nextId : Nat
deriving DecidableEq

/-- A freshly created database. -/
def emptyStore : Store := { rows := [], nextId := 1 }

/-- Placeholder row for positional (`getD`) access. -/
def emptyReport : Report :=
  { id := 0, server := "", status := "", exit_code := 0, duration_seconds := 0,
    reboot_required := 0, timestamp := "", raw := [], ip := Option.none }

/-- An HTTP response: status code and detail (or body) text. -/
structure Resp where
  status : Nat
  detail : String
deriving DecidableEq

/-- The required ingestion fields, in source order. -/
def requiredFields : List String :=
  ["server", "timestamp", "status", "exit_code", "duration_seconds", "reboot_required", "version"]

/-- The `POST /api/v1/reports` handler `ingest_report`, including
`_require_api_key`. `headerKey` is the `X-API-Key` header, `body` the
parsed JSON object (`Option.none` models a body that fails to parse),
`clientIp` the request's client address. -/
def ingest (apiKey : String) (headerKey : Option String) (body : Option Payload)
    (clientIp : Option String) (s : Store) : Store × Resp :=
  if apiKey = "" then
    (s, { status := 503, detail := "Dashboard API key not configured on server" })
  else if !(strTruthy headerKey) || headerKey != some apiKey then
    (s, { status := 401, detail := "Invalid or missing API key" })
  else
    match body with
    | Option.none => (s, { status := 400, detail := "Invalid JSON payload" })
    | some data =>
      let missing := requiredFields.filter (fun k => !(hasKey data k))
      if missing ≠ [] then
        (s, { status := 400,
              detail := "Missing fields: " ++ String.intercalate ", " missing })
      else
        match pyInt (getKey data "exit_code"), pyInt (getKey data "duration_seconds") with
        | some ec, some du =>
          let row : Report :=
            { id := s.nextId
              server := pyTake 255 (pyStr (getKey data "server"))
              status := pyTake 64 (pyStr (getKey data "status"))
              exit_code := ec
              duration_seconds := du
              reboot_required := rebootNorm (getKey data "reboot_required")
              timestamp := pyTake 64 (pyStr (getKey data "timestamp"))
              raw := data
              ip := clientIp }
          ({ rows := s.rows ++ [row], nextId := s.nextId + 1 },
           { status := 201, detail := "ok" })
        | _, _ => (s, { status := 400, detail := "Validation error" })

/-- Row `a` sorts at or before row `b` under
`ORDER BY datetime(timestamp) DESC, id DESC`: the rendered TEXT keys
compare by BINARY collation, SQL `NULL` keys sort last under `DESC`,
and equal keys fall back to `id DESC`. -/
def rowBefore (a b : Report) : Bool :=
  match sqliteDatetime a.timestamp, sqliteDatetime b.timestamp with
  | Option.none, Option.none => decide (b.id ≤ a.id)
  | Option.none, some _ => false
  | some _, Option.none => true
  | some x, some y => strLt y x || (decide (x = y) && decide (b.id ≤ a.id))

/-- The shared `SELECT * FROM reports [WHERE server = ?] ORDER BY
datetime(timestamp) DESC, id DESC LIMIT n` query. -/
def queryRecent (s : Store) (filt : Option String) (n : Nat) : List Report :=
  let base := if strTruthy filt then s.rows.filter (fun r => r.server == filt.getD "") else s.rows
  (List.insertionSort (fun a b => rowBefore a b = true) base).take n

/-- The `GET /api/v1/reports` handler `list_reports` at an explicit
integer limit: `limit = max(1, min(limit, 1000))`. -/
def listReports (s : Store) (filt : Option String) (lim : Int) : List Report :=
  queryRecent s filt (max 1 (min lim 1000)).toNat

/-- The same handler with an optional `limit` query parameter, whose
FastAPI default is `100`. -/
def listReportsReq (s : Store) (filt : Option String) (lim : Option Int) : List Report :=
  listReports s filt (lim.getD 100)

/-- Codepoint-lexicographic order on character lists: SQLite's BINARY
collation on UTF-8 text coincides with it. -/
def charListLe : List Char → List Char → Bool
  | [], _ => true
  | _ :: _, [] => false
  | a :: as, b :: bs => if a < b then true else if b < a then false else charListLe as bs

/-- String order used by `ORDER BY server ASC` (BINARY collation). -/
def strLe (a b : String) : Bool := charListLe a.data b.data

/-- `SELECT DISTINCT server FROM reports ORDER BY server ASC`. -/
def distinctServers (s : Store) : List String :=
  List.insertionSort (fun a b => strLe a b = true) (s.rows.map (fun r => r.server)).dedup

/-- What the index handler passes to the template. -/
structure IndexResult where
  servers : List String
  selected : Option String
  items : List Report
deriving DecidableEq

/-- The `GET /` handler `index`: known-machine check, then the recent
query (filtered only when the possibly reset filter is truthy) with
`LIMIT 100`. -/
def indexView (s : Store) (filt : Option String) : IndexResult :=
  let servers := distinctServers s
  let sel := if strTruthy filt && !(servers.contains (filt.getD "")) then Option.none else filt
  { servers := servers, selected := sel, items := queryRecent s sel 100 }

/-- The structured (non-`raw`) columns of a row, used to state that no
column of the schema carries the `version` field. -/
def eraseRaw (r : Report) : Nat × String × String × Int × Int × Int × String × Option String :=
  (r.id, r.server, r.status, r.exit_code, r.duration_seconds, r.reboot_required, r.timestamp, r.ip)

/-- The concrete scenario payload from the specification. -/
def D1 : Payload :=
  [("server", PyVal.str "host1"), ("timestamp", PyVal.str "2024-06-01T10:00:00"),
   ("status", PyVal.str "success"), ("exit_code", PyVal.int 0),
   ("duration_seconds", PyVal.int 120), ("reboot_required", PyVal.bool true),
   ("version", PyVal.str "1.0")]

/-- A concrete two-row store: the earlier timestamp was inserted first. -/
def S5 : Store :=
  { rows :=
      [{ emptyReport with id := 1, server := "host1", timestamp := "2024-01-01T00:00:00" },
       { emptyReport with id := 2, server := "host2", timestamp := "2024-01-02T00:00:00" }],
    nextId := 3 }

/-! ### Order-theoretic facts about the sort comparator -/

theorem charListLt_irrefl : ∀ a : List Char, charListLt a a = false
  | [] => rfl
  | c :: cs => by simp [charListLt, charListLt_irrefl cs]

theorem charListLt_asymm (a b : List Char) (h1 : charListLt a b = true)
    (h2 : charListLt b a = true) : False := by
  induction a generalizing b with
  | nil => cases b <;> simp [charListLt] at h1 h2
  | cons c cs ih =>
    cases b with
    | nil => simp [charListLt] at h1
    | cons d ds =>
      simp only [charListLt] at h1 h2
      by_cases hcd : c < d
      · have hdc : ¬ d < c := fun h => lt_irrefl c (lt_trans hcd h)
        simp [hcd, hdc] at h2
      · by_cases hdc : d < c
        · simp [hcd, hdc] at h1
        · simp [hcd, hdc] at h1 h2
          exact ih ds h1 h2

theorem charListLt_trans (a b c : List Char) (h1 : charListLt a b = true)
    (h2 : charListLt b c = true) : charListLt a c = true := by
  induction a generalizing b c with
  | nil =>
    cases b with
    | nil => simp [charListLt] at h1
    | cons d ds =>
      cases c with
      | nil => simp [charListLt] at h2
      | cons e es => simp [charListLt]
  | cons x xs ih =>
    cases b with
    | nil => simp [charListLt] at h1
    | cons d ds =>
      cases c with
      | nil => simp [charListLt] at h2
      | cons e es =>
        simp only [charListLt] at h1 h2 ⊢
        rcases lt_trichotomy x d with hxd | hxd | hxd
        · rcases lt_trichotomy d e with hde | hde | hde
          · simp [lt_trans hxd hde]
          · subst hde
            simp [hxd]
          · have h3 : ¬ d < e := fun h => lt_irrefl d (lt_trans h hde)
            simp [h3, hde] at h2
        · subst hxd
          rcases lt_trichotomy x e with hxe | hxe | hxe
          · simp [hxe]
          · subst hxe
            have h4 : ¬ x < x := lt_irrefl x
            simp [h4] at h1 h2 ⊢
            exact ih ds es h1 h2
          · have h3 : ¬ x < e := fun h => lt_irrefl x (lt_trans h hxe)
            simp [h3, hxe] at h2
        · have h3 : ¬ x < d := fun h => lt_irrefl x (lt_trans h hxd)
          simp [h3, hxd] at h1

theorem charListLt_conn (a b : List Char) (h1 : charListLt a b = false)
    (h2 : charListLt b a = false) : a = b := by
  induction a generalizing b with
  | nil =>
    cases b with
    | nil => rfl
    | cons d ds => simp [charListLt] at h1
  | cons x xs ih =>
    cases b with
    | nil => simp [charListLt] at h2
    | cons d ds =>
      simp only [charListLt] at h1 h2
      rcases lt_trichotomy x d with hxd | hxd | hxd
      · simp [hxd] at h1
      · subst hxd
        have h4 : ¬ x < x := lt_irrefl x
        simp [h4] at h1 h2
        rw [ih ds h1 h2]
      · have h3 : ¬ x < d := fun h => lt_irrefl x (lt_trans h hxd)
        simp [h3, hxd] at h2

theorem strLt_irrefl (a : String) : strLt a a = false := charListLt_irrefl a.data

theorem strLt_conn (a b : String) (h1 : strLt a b = false) (h2 : strLt b a = false) : a = b := by
  cases a with
  | mk da =>
    cases b with
    | mk db => exact congrArg String.mk (charListLt_conn da db h1 h2)

theorem rowBefore_total (a b : Report) : rowBefore a b = true ∨ rowBefore b a = true := by
  unfold rowBefore
  cases sqliteDatetime a.timestamp <;> cases sqliteDatetime b.timestamp
  · simp
    omega
  · simp
  · simp
  · rename_i x y
    by_cases h1 : strLt y x = true
    · simp [h1]
    · by_cases h2 : strLt x y = true
      · simp [h2]
      · have h1f : strLt y x = false := by revert h1; cases strLt y x <;> simp
        have h2f : strLt x y = false := by revert h2; cases strLt x y <;> simp
        have hxy : x = y := strLt_conn x y h2f h1f
        subst hxy
        rcases Nat.le_total b.id a.id with h | h
        · left
          simp [h]
        · right
          simp [h]

theorem rowBefore_trans (a b c : Report) (h1 : rowBefore a b = true)
    (h2 : rowBefore b c = true) : rowBefore a c = true := by
  unfold rowBefore at h1 h2 ⊢
  cases ha : sqliteDatetime a.timestamp <;> cases hb : sqliteDatetime b.timestamp <;>
    cases hc : sqliteDatetime c.timestamp <;>
    simp only [ha, hb, hc] at h1 h2 ⊢
  · simp only [decide_eq_true_eq] at h1 h2 ⊢
    omega
  · exact absurd h2 (by simp)
  · exact absurd h1 (by simp)
  · exact absurd h1 (by simp)
  · exact absurd h2 (by simp)
  · rename_i x y z
    simp only [Bool.or_eq_true, Bool.and_eq_true, decide_eq_true_eq] at h1 h2 ⊢
    rcases h1 with h1 | ⟨hxy, hba⟩ <;> rcases h2 with h2 | ⟨hyz, hcb⟩
    · exact Or.inl (charListLt_trans _ _ _ h2 h1)
    · exact Or.inl (hyz ▸ h1)
    · exact Or.inl (by rw [hxy]; exact h2)
    · exact Or.inr ⟨hxy.trans hyz, Nat.le_trans hcb hba⟩

instance : IsTotal Report (fun a b => rowBefore a b = true) := ⟨rowBefore_total⟩

instance : IsTrans Report (fun a b => rowBefore a b = true) := ⟨fun _ _ _ => rowBefore_trans _ _ _⟩

/-! ### Helper lemmas -/

theorem queryRecent_length_le (s : Store) (filt : Option String) (n : Nat) :
    (queryRecent s filt n).length ≤ n := by
  unfold queryRecent
  exact List.length_take_le _ _

theorem queryRecent_pairwise (s : Store) (filt : Option String) (n : Nat) :
    (queryRecent s filt n).Pairwise (fun a b => rowBefore a b = true) := by
  unfold queryRecent
  exact List.Pairwise.sublist (List.take_sublist _ _) (List.sorted_insertionSort _ _)

theorem missing_nil_of_all (data : Payload)
    (hall : requiredFields.all (hasKey data) = true) :
    requiredFields.filter (fun k => !(hasKey data k)) = [] := by
  rw [List.filter_eq_nil_iff]
  intro a ha
  have := List.all_eq_true.mp hall a ha
  simp [this]

theorem pyTake_length_le (n : Nat) (s : String) : (pyTake n s).length ≤ n :=
  List.length_take_le _ _

theorem lookupKey_setKey (d : Payload) (k k2 : String) (v : PyVal) :
    lookupKey (setKey d k v) k2 =
      if k2 = k then Option.map (fun _ => v) (lookupKey d k2) else lookupKey d k2 := by
  by_cases hkk : k2 = k
  · subst hkk
    simp only [if_pos rfl]
    induction d with
    | nil => simp [setKey, lookupKey]
    | cons kv rest ih =>
      by_cases h1 : kv.1 = k2 <;> simp_all [setKey, lookupKey]
  · simp only [if_neg hkk]
    induction d with
    | nil => simp [setKey, lookupKey]
    | cons kv rest ih =>
      by_cases h1 : kv.1 = k <;> by_cases h2 : kv.1 = k2 <;>
        simp_all [setKey, lookupKey]

theorem hasKey_setKey (d : Payload) (k k2 : String) (v : PyVal) :
    hasKey (setKey d k v) k2 = hasKey d k2 := by
  simp only [hasKey, lookupKey_setKey]
  split <;> simp

theorem getKey_setKey_ne (d : Payload) (k k2 : String) (v : PyVal) (h : k2 ≠ k) :
    getKey (setKey d k v) k2 = getKey d k2 := by
  simp [getKey, lookupKey_setKey, h]

theorem missing_setKey (d : Payload) (k : String) (v : PyVal) :
    requiredFields.filter (fun k2 => !(hasKey (setKey d k v) k2)) =
      requiredFields.filter (fun k2 => !(hasKey d k2)) :=
  List.filter_congr (by intro a _; simp [hasKey_setKey])

theorem ingest_accepted (apiKey : String) (hk : apiKey ≠ "") (data : Payload)
    (clientIp : Option String) (s : Store)
    (hall : requiredFields.all (hasKey data) = true)
    (ec du : Int) (hec : pyInt (getKey data "exit_code") = some ec)
    (hdu : pyInt (getKey data "duration_seconds") = some du) :
    ingest apiKey (some apiKey) (some data) clientIp s =
      ({ rows := s.rows ++
          [{ id := s.nextId,
             server := pyTake 255 (pyStr (getKey data "server")),
             status := pyTake 64 (pyStr (getKey data "status")),
             exit_code := ec, duration_seconds := du,
             reboot_required := rebootNorm (getKey data "reboot_required"),
             timestamp := pyTake 64 (pyStr (getKey data "timestamp")),
             raw := data, ip := clientIp }],
         nextId := s.nextId + 1 },
       { status := 201, detail := "ok" }) := by
  have hmiss := missing_nil_of_all data hall
  simp [ingest, hk, strTruthy, hmiss, hec, hdu]

/-! ### Claim theorems -/

/-- C2: every rejected ingestion request (missing field, malformed
JSON, bad or missing credential, unconfigured secret, or
non-integer-coercible `exit_code`/`duration_seconds`) leaves the
reports table unchanged in size, and an accepted request (status 201)
inserts exactly one row. -/
theorem ingest_row_count (apiKey : String) (headerKey : Option String)
    (body : Option Payload) (clientIp : Option String) (s : Store) :
    ((ingest apiKey headerKey body clientIp s).1).rows.length =
      (if (ingest apiKey headerKey body clientIp s).2.status = 201
        then s.rows.length + 1 else s.rows.length) := by
  simp only [ingest]
  repeat' split
  all_goals simp_all

/-- C3: with no configured secret every ingestion request gets 503;
with a non-empty secret, authentication passes exactly when the header
credential is present and equal to the secret, and otherwise the
request gets 401. -/
theorem ingest_auth_gate (apiKey : String) (headerKey : Option String)
    (body : Option Payload) (clientIp : Option String) (s : Store) :
    (apiKey = "" → (ingest apiKey headerKey body clientIp s).2.status = 503) ∧
    (apiKey ≠ "" → headerKey ≠ some apiKey →
      (ingest apiKey headerKey body clientIp s).2.status = 401) ∧
    (apiKey ≠ "" → headerKey = some apiKey →
      (ingest apiKey headerKey body clientIp s).2.status ≠ 401 ∧
      (ingest apiKey headerKey body clientIp s).2.status ≠ 503) := by
  refine ⟨fun h => ?_, fun h1 h2 => ?_, fun h1 h2 => ?_⟩
  · simp [ingest, h]
  · have hc : (!(strTruthy headerKey) || headerKey != some apiKey) = true := by
      cases headerKey <;> simp_all [strTruthy]
    simp [ingest, h1, hc]
  · subst h2
    have hc : (!(strTruthy (some apiKey)) || some apiKey != some apiKey) = false := by
      simp [strTruthy, h1]
    simp only [ingest, if_neg h1, hc, Bool.false_eq_true, if_false]
    repeat' split
    all_goals simp_all

/-- C4: `reboot_required` normalizes to 1 exactly for boolean true,
integer 1, `"true"`, and `"True"`, and to 0 for every other scalar
value (including `None`, i.e. an absent field). -/
theorem reboot_required_normalization (v : PyVal) :
    (rebootNorm v = 1 ↔
      (v = PyVal.bool true ∨ v = PyVal.int 1 ∨ v = PyVal.str "true" ∨ v = PyVal.str "True")) ∧
    (rebootNorm v = 0 ↔
      ¬(v = PyVal.bool true ∨ v = PyVal.int 1 ∨ v = PyVal.str "true" ∨ v = PyVal.str "True")) := by
  cases v with
  | null => simp [rebootNorm, pyEq]
  | bool b => cases b <;> simp [rebootNorm, pyEq]
  | int n => by_cases h : n = 1 <;> simp [rebootNorm, pyEq, h]
  | str t => by_cases h1 : t = "true" <;> by_cases h2 : t = "True" <;>
      simp_all [rebootNorm, pyEq]

/-- C10: an empty-string `server` query parameter is falsy, so both the
JSON listing and the index view return the same record set as no
filter at all. -/
theorem empty_server_filter (s : Store) (lim : Int) :
    listReports s (some "") lim = listReports s Option.none lim ∧
    (indexView s (some "")).items = (indexView s Option.none).items := by
  constructor
  · simp [listReports, queryRecent, strTruthy]
  · simp [indexView, queryRecent, strTruthy]

/-- C1: for a valid payload (all seven required fields present,
integer-coercible `exit_code` and `duration_seconds`) accepted with a
valid credential into a fresh store, an unfiltered `GET /api/v1/reports`
with any limit at least 1 returns exactly the record holding the
normalized fields, whose `raw` deep-equals the original payload
(including `version` and any extra fields). -/
theorem ingest_then_list_returns_normalized (apiKey : String) (hk : apiKey ≠ "")
    (data : Payload) (clientIp : Option String) (lim : Int) (hlim : 1 ≤ lim)
    (hall : requiredFields.all (hasKey data) = true)
    (ec du : Int) (hec : pyInt (getKey data "exit_code") = some ec)
    (hdu : pyInt (getKey data "duration_seconds") = some du) :
    (ingest apiKey (some apiKey) (some data) clientIp emptyStore).2.status = 201 ∧
    listReports (ingest apiKey (some apiKey) (some data) clientIp emptyStore).1 Option.none lim =
      [{ id := 1,
         server := pyTake 255 (pyStr (getKey data "server")),
         status := pyTake 64 (pyStr (getKey data "status")),
         exit_code := ec, duration_seconds := du,
         reboot_required := rebootNorm (getKey data "reboot_required"),
         timestamp := pyTake 64 (pyStr (getKey data "timestamp")),
         raw := data, ip := clientIp }] := by
  rw [ingest_accepted apiKey hk data clientIp emptyStore hall ec du hec hdu]
  refine ⟨rfl, ?_⟩
  simp only [listReports, queryRecent, emptyStore, strTruthy, List.nil_append,
    Bool.false_eq_true, if_false, List.insertionSort, List.orderedInsert]
  apply List.take_of_length_le
  simp only [List.length_cons, List.length_nil]
  omega

/-- C5: in the output of `GET /api/v1/reports`, whenever two returned
records have timestamps `datetime()` accepts, the record at the earlier
position has the later-or-equal parsed datetime value (the rendered key
the program orders by), and on equal parsed values the larger row id
comes first — independent of insertion order. -/
theorem list_reports_ordering (s : Store) (filt : Option String) (lim : Int)
    (i j : Nat) (hij : i < j) (hj : j < (listReports s filt lim).length)
    (ta tb : String)
    (hta : sqliteDatetime ((listReports s filt lim).getD i emptyReport).timestamp = some ta)
    (htb : sqliteDatetime ((listReports s filt lim).getD j emptyReport).timestamp = some tb) :
    strLt ta tb = false ∧ (ta = tb →
      ((listReports s filt lim).getD j emptyReport).id ≤
        ((listReports s filt lim).getD i emptyReport).id) := by
  have hi : i < (listReports s filt lim).length := lt_trans hij hj
  have hgi : (listReports s filt lim).getD i emptyReport = (listReports s filt lim)[i] := by
    simp [List.getD_eq_getElem?_getD, List.getElem?_eq_getElem hi]
  have hgj : (listReports s filt lim).getD j emptyReport = (listReports s filt lim)[j] := by
    simp [List.getD_eq_getElem?_getD, List.getElem?_eq_getElem hj]
  rw [hgi] at hta ⊢
  rw [hgj] at htb ⊢
  have hp : (listReports s filt lim).Pairwise (fun a b => rowBefore a b = true) :=
    queryRecent_pairwise s filt _
  have hr : rowBefore ((listReports s filt lim)[i]) ((listReports s filt lim)[j]) = true :=
    List.pairwise_iff_getElem.mp hp i j hi hj hij
  unfold rowBefore at hr
  rw [hta, htb] at hr
  simp only [Bool.or_eq_true, Bool.and_eq_true, decide_eq_true_eq] at hr
  constructor
  · cases hlt : strLt ta tb with
    | false => rfl
    | true =>
      exfalso
      rcases hr with h | ⟨he, _⟩
      · exact charListLt_asymm _ _ hlt h
      · rw [he, strLt_irrefl] at hlt
        exact Bool.false_ne_true hlt
  · intro he
    rcases hr with h | ⟨_, hid⟩
    · rw [he, strLt_irrefl] at h
      exact absurd h Bool.false_ne_true
    · exact hid

/-- C6: the effective limit of `GET /api/v1/reports` is
`max 1 (min limit 1000)`: `limit=5000` yields at most 1000 rows,
non-positive limits behave as limit 1 (one row on a non-empty table),
and an omitted limit defaults to 100. -/
theorem limit_clamping (s : Store) (filt : Option String) (n : Int) :
    listReports s filt n = listReports s filt (max 1 (min n 1000)) ∧
    (listReports s filt 5000).length ≤ 1000 ∧
    (n ≤ 0 → listReports s filt n = listReports s filt 1) ∧
    (s.rows ≠ [] → (listReports s Option.none 0).length = 1) ∧
    listReportsReq s filt Option.none = listReports s filt 100 := by
  refine ⟨?_, ?_, fun hn => ?_, fun hs => ?_, rfl⟩
  · unfold listReports
    congr 1
    omega
  · have h := queryRecent_length_le s filt ((max 1 (min (5000 : Int) 1000)).toNat)
    simpa [listReports] using h
  · unfold listReports
    congr 1
    omega
  · have hlen : s.rows.length ≠ 0 := by simpa [List.length_eq_zero] using hs
    unfold listReports queryRecent
    simp only [strTruthy, if_neg]
    rw [List.length_take, List.length_insertionSort]
    simp [List.length_eq_zero]
    omega

/-- C7: a presentation-view filter naming a machine that is not among
the stored distinct servers is ignored: the items equal the unfiltered
items (at most 100 of them) and no machine ends up selected. -/
theorem unknown_server_filter (s : Store) (x : String)
    (hx : x ∉ distinctServers s) :
    (indexView s (some x)).items = (indexView s Option.none).items ∧
    ((indexView s (some x)).selected.getD "") = "" ∧
    (indexView s (some x)).items.length ≤ 100 := by
  have hc : (distinctServers s).contains x = false := by
    simp [List.contains, List.elem_iff, hx]
  refine ⟨?_, ?_, ?_⟩
  · by_cases hx0 : x = ""
    · subst hx0
      simp [indexView, queryRecent, strTruthy]
    · simp [indexView, queryRecent, strTruthy, hx0, hc, hx]
  · by_cases hx0 : x = ""
    · subst hx0
      simp [indexView, strTruthy]
    · simp [indexView, strTruthy, hx0, hc, hx]
  · simp only [indexView]
    exact queryRecent_length_le _ _ _

/-- C8: a payload missing required fields is rejected with a message
listing exactly the missing names in field order; two otherwise-equal
payloads differing only in `version` produce the same status and the
same rows up to the `raw` column (there is no `version` column), while
an accepted payload survives whole — `version` included — in `raw`. -/
theorem missing_fields_and_version (apiKey : String) (hk : apiKey ≠ "")
    (clientIp : Option String) (s : Store) (data : Payload) (v1 v2 : PyVal) :
    (requiredFields.filter (fun k => !(hasKey data k)) ≠ [] →
      ingest apiKey (some apiKey) (some data) clientIp s =
        (s, { status := 400,
              detail := "Missing fields: " ++ String.intercalate ", "
                (requiredFields.filter (fun k => !(hasKey data k))) })) ∧
    ((ingest apiKey (some apiKey) (some (setKey data "version" v1)) clientIp s).2.status =
      (ingest apiKey (some apiKey) (some (setKey data "version" v2)) clientIp s).2.status) ∧
    ((ingest apiKey (some apiKey) (some (setKey data "version" v1)) clientIp s).1.rows.map eraseRaw =
      (ingest apiKey (some apiKey) (some (setKey data "version" v2)) clientIp s).1.rows.map eraseRaw) ∧
    ((ingest apiKey (some apiKey) (some (setKey data "version" v1)) clientIp s).2.status = 201 →
      (ingest apiKey (some apiKey) (some (setKey data "version" v1)) clientIp s).1.rows.map
          (fun r => r.raw) =
        s.rows.map (fun r => r.raw) ++ [setKey data "version" v1]) := by
  have gser : ∀ v : PyVal, getKey (setKey data "version" v) "server" = getKey data "server" :=
    fun v => getKey_setKey_ne data "version" "server" v (by decide)
  have gsta : ∀ v : PyVal, getKey (setKey data "version" v) "status" = getKey data "status" :=
    fun v => getKey_setKey_ne data "version" "status" v (by decide)
  have gexi : ∀ v : PyVal, getKey (setKey data "version" v) "exit_code" = getKey data "exit_code" :=
    fun v => getKey_setKey_ne data "version" "exit_code" v (by decide)
  have gdur : ∀ v : PyVal,
      getKey (setKey data "version" v) "duration_seconds" = getKey data "duration_seconds" :=
    fun v => getKey_setKey_ne data "version" "duration_seconds" v (by decide)
  have greb : ∀ v : PyVal,
      getKey (setKey data "version" v) "reboot_required" = getKey data "reboot_required" :=
    fun v => getKey_setKey_ne data "version" "reboot_required" v (by decide)
  have gts : ∀ v : PyVal, getKey (setKey data "version" v) "timestamp" = getKey data "timestamp" :=
    fun v => getKey_setKey_ne data "version" "timestamp" v (by decide)
  refine ⟨fun hmiss => ?_, ?_⟩
  · simp [ingest, hk, strTruthy, hmiss]
  by_cases hm : requiredFields.filter (fun k => !(hasKey data k)) = []
  · rcases hpe : pyInt (getKey data "exit_code") with _ | ec
    · refine ⟨?_, ?_, fun hok => ?_⟩ <;>
        simp_all [ingest, hk, strTruthy, missing_setKey, gexi, hpe, hm]
    · rcases hpd : pyInt (getKey data "duration_seconds") with _ | du
      · refine ⟨?_, ?_, fun hok => ?_⟩ <;>
          simp_all [ingest, hk, strTruthy, missing_setKey, gexi, gdur, hpe, hpd, hm]
      · refine ⟨?_, ?_, fun hok => ?_⟩ <;>
          simp_all [ingest, hk, strTruthy, missing_setKey, gser, gsta, gexi, gdur, greb, gts,
            hpe, hpd, hm, eraseRaw]
  · refine ⟨?_, ?_, fun hok => ?_⟩ <;>
      simp_all [ingest, hk, strTruthy, missing_setKey, hm]

/-- C9: an accepted payload stores `server` as its text coercion cut to
255 characters and `status`/`timestamp` cut to 64, with the whole
payload in `raw`; a payload whose `exit_code` or `duration_seconds` is
not integer-coercible is rejected with status 400 and the store is
untouched. -/
theorem field_normalization (apiKey : String) (hk : apiKey ≠ "") (data : Payload)
    (clientIp : Option String) (s : Store)
    (hall : requiredFields.all (hasKey data) = true) :
    (∀ ec du : Int, pyInt (getKey data "exit_code") = some ec →
      pyInt (getKey data "duration_seconds") = some du →
      (ingest apiKey (some apiKey) (some data) clientIp s).2.status = 201 ∧
      (ingest apiKey (some apiKey) (some data) clientIp s).1.rows =
        s.rows ++
          [{ id := s.nextId,
             server := pyTake 255 (pyStr (getKey data "server")),
             status := pyTake 64 (pyStr (getKey data "status")),
             exit_code := ec, duration_seconds := du,
             reboot_required := rebootNorm (getKey data "reboot_required"),
             timestamp := pyTake 64 (pyStr (getKey data "timestamp")),
             raw := data, ip := clientIp }] ∧
      (pyTake 255 (pyStr (getKey data "server"))).length ≤ 255 ∧
      (pyTake 64 (pyStr (getKey data "status"))).length ≤ 64 ∧
      (pyTake 64 (pyStr (getKey data "timestamp"))).length ≤ 64) ∧
    ((pyInt (getKey data "exit_code") = Option.none ∨
        pyInt (getKey data "duration_seconds") = Option.none) →
      (ingest apiKey (some apiKey) (some data) clientIp s).2.status = 400 ∧
      (ingest apiKey (some apiKey) (some data) clientIp s).1 = s) := by
  have hmiss := missing_nil_of_all data hall
  constructor
  · intro ec du hec hdu
    refine ⟨?_, ?_, pyTake_length_le _ _, pyTake_length_le _ _, pyTake_length_le _ _⟩ <;>
      simp [ingest, hk, strTruthy, hmiss, hec, hdu]
  · intro hbad
    rcases hpe : pyInt (getKey data "exit_code") with _ | ec
    · constructor <;> simp [ingest, hk, strTruthy, hmiss, hpe]
    · have hpd : pyInt (getKey data "duration_seconds") = Option.none := by
        rcases hbad with h | h
        · rw [hpe] at h; exact absurd h (by simp)
        · exact h
      constructor <;> simp [ingest, hk, strTruthy, hmiss, hpe, hpd]

/-! ### Concrete witnesses -/

/-- Witness for C1 at the specification's concrete scenario payload. -/
theorem ingest_then_list_returns_normalized_witness :
    (ingest "k" (some "k") (some D1) Option.none emptyStore).2.status = 201 ∧
    listReports (ingest "k" (some "k") (some D1) Option.none emptyStore).1 Option.none 1 =
      [{ id := 1,
         server := pyTake 255 (pyStr (getKey D1 "server")),
         status := pyTake 64 (pyStr (getKey D1 "status")),
         exit_code := 0, duration_seconds := 120,
         reboot_required := rebootNorm (getKey D1 "reboot_required"),
         timestamp := pyTake 64 (pyStr (getKey D1 "timestamp")),
         raw := D1, ip := Option.none }] :=
  ingest_then_list_returns_normalized "k" (by decide) D1 Option.none 1 (by decide) (by decide)
    0 120 (by decide) (by decide)

/-- Witness for C3 on concrete credentials. -/
theorem ingest_auth_gate_witness :
    (ingest "" (some "k") (some D1) Option.none emptyStore).2.status = 503 ∧
    (ingest "k" (some "x") (some D1) Option.none emptyStore).2.status = 401 ∧
    (ingest "k" (some "k") (some D1) Option.none emptyStore).2.status ≠ 401 :=
  ⟨(ingest_auth_gate "" (some "k") (some D1) Option.none emptyStore).1 rfl,
   (ingest_auth_gate "k" (some "x") (some D1) Option.none emptyStore).2.1 (by decide) (by decide),
   ((ingest_auth_gate "k" (some "k") (some D1) Option.none emptyStore).2.2 (by decide) rfl).1⟩

/-- Witness for C5 on the two-row store with distinct parsed datetime
values. -/
theorem list_reports_ordering_witness :
    strLt "2024-01-02 00:00:00" "2024-01-01 00:00:00" = false ∧
    (("2024-01-02 00:00:00" : String) = "2024-01-01 00:00:00" →
      ((listReports S5 Option.none 100).getD 1 emptyReport).id ≤
        ((listReports S5 Option.none 100).getD 0 emptyReport).id) :=
  list_reports_ordering S5 Option.none 100 0 1 (by decide) (by decide)
    "2024-01-02 00:00:00" "2024-01-01 00:00:00" (by decide) (by decide)

/-- Witness for C6 at limit 0 on a non-empty store. -/
theorem limit_clamping_witness :
    listReports S5 Option.none 0 = listReports S5 Option.none 1 ∧
    (listReports S5 Option.none 0).length = 1 :=
  ⟨(limit_clamping S5 Option.none 0).2.2.1 (by decide),
   (limit_clamping S5 Option.none 0).2.2.2.1 (by decide)⟩

/-- Witness for C7 with a filter naming an unknown machine. -/
theorem unknown_server_filter_witness :
    (indexView S5 (some "ghost")).items = (indexView S5 Option.none).items ∧
    ((indexView S5 (some "ghost")).selected.getD "") = "" ∧
    (indexView S5 (some "ghost")).items.length ≤ 100 :=
  unknown_server_filter S5 "ghost" (by decide)

/-- Witness for C8: the accepted payload's `version` survives in `raw`. -/
theorem missing_fields_and_version_witness :
    (ingest "k" (some "k") (some (setKey D1 "version" (PyVal.str "2.0"))) Option.none
        emptyStore).1.rows.map (fun r => r.raw) =
      emptyStore.rows.map (fun r => r.raw) ++ [setKey D1 "version" (PyVal.str "2.0")] :=
  (missing_fields_and_version "k" (by decide) Option.none emptyStore D1
      (PyVal.str "2.0") (PyVal.str "3.0")).2.2.2 (by decide)

/-- Witness for C9 at the concrete scenario payload. -/
theorem field_normalization_witness :
    (ingest "k" (some "k") (some D1) Option.none emptyStore).2.status = 201 ∧
    (ingest "k" (some "k") (some D1) Option.none emptyStore).1.rows =
      emptyStore.rows ++
        [{ id := emptyStore.nextId,
           server := pyTake 255 (pyStr (getKey D1 "server")),
           status := pyTake 64 (pyStr (getKey D1 "status")),
           exit_code := 0, duration_seconds := 120,
           reboot_required := rebootNorm (getKey D1 "reboot_required"),
           timestamp := pyTake 64 (pyStr (getKey D1 "timestamp")),
           raw := D1, ip := Option.none }] ∧
    (pyTake 255 (pyStr (getKey D1 "server"))).length ≤ 255 ∧
    (pyTake 64 (pyStr (getKey D1 "status"))).length ≤ 64 ∧
    (pyTake 64 (pyStr (getKey D1 "timestamp"))).length ≤ 64 :=
  (field_normalization "k" (by decide) D1 Option.none emptyStore (by decide)).1
    0 120 (by decide) (by decide)
